/-
Verification of the scheduleit conversational calendar agent (src/agent.py).

The agent's message handler `MistralAgent.run` and its helpers are shallowly
embedded below.  External collaborators (the Mistral LLM, the Google calendar
service, the weather / maps / geolocation HTTP endpoints, and the stdlib
datetime / json routines that only they feed) are modelled as fields of an
`Env` record whose fallible calls return `Except String α`; a Python
`try/except` block becomes a `match` on the `Except` produced by the body it
guards.  Instants are modelled as minutes since an epoch (`Int`); the
floating-point temperature rendering and the `strftime`/`isoformat` textual
renderings of instants are carried as collaborator-supplied render functions,
since their exact text is produced by stdlib formatting the claims never
inspect.  Python `str` operations used by the agent (`lower`, `split`,
`strip`, substring `in`, `startswith`, `endswith`, `replace`) are defined
below over `String.data` so that concrete runs evaluate by `decide`/`rfl`.
-/
import Mathlib

namespace ScheduleIt

/-! ## Python string primitives -/

/-- `startsWithCL s p`: the char list `s` starts with the char list `p`
(Python `str.startswith`). -/
def startsWithCL : List Char → List Char → Bool
  | _, [] => true
  | [], _ :: _ => false
  | c :: cs, p :: ps => c == p && startsWithCL cs ps

/-- `containsCL s p`: the char list `p` occurs as a contiguous run inside `s`
(Python's substring test `p in s`). -/
def containsCL : List Char → List Char → Bool
  | [], p => startsWithCL [] p
  | s@(_ :: rest), p => startsWithCL s p || containsCL rest p

/-- Python `p in s` on strings. -/
def pyIn (p s : String) : Bool := containsCL s.data p.data

/-- Python `s.startswith p`. -/
def startsWithS (s p : String) : Bool := startsWithCL s.data p.data

/-- Python `s.endswith p`. -/
def endsWithS (s p : String) : Bool := startsWithCL s.data.reverse p.data.reverse

/-- Python `s.lower()` (ASCII case folding, which is all the agent's
phrase tables need). -/
def lowerS (s : String) : String := ⟨s.data.map Char.toLower⟩

/-- Python `s.split(sep)` for a non-empty separator `p0 :: ps`:
non-overlapping left-to-right splitting on every occurrence.  The `fuel`
argument (instantiated with the string length, which bounds the recursion
depth) keeps the recursion structural so that concrete splits reduce in the
kernel. -/
def splitOnPF (p0 : Char) (ps : List Char) : Nat → List Char → List (List Char)
  | 0, s => [s]
  | _ + 1, [] => [[]]
  | fuel + 1, c :: rest =>
    if startsWithCL (c :: rest) (p0 :: ps) then
      [] :: splitOnPF p0 ps fuel (rest.drop ps.length)
    else
      match splitOnPF p0 ps fuel rest with
      | [] => [[c]]
      | h :: t => (c :: h) :: t

/-- Python `s.split(sep)` on char lists, non-empty separator `p0 :: ps`. -/
def splitOnP (p0 : Char) (ps : List Char) (s : List Char) : List (List Char) :=
  splitOnPF p0 ps s.length s

/-- Python `s.split(sep)`.  (Python raises on an empty separator; the agent
only splits on non-empty literals, for which the `[s]` default is unreached.) -/
def splitOnS (s p : String) : List String :=
  match p.data with
  | [] => [s]
  | c :: cs => (splitOnP c cs s.data).map (fun l => ⟨l⟩)

/-- Python whitespace `s.split()`: split on runs of whitespace, dropping
empty pieces.  `acc` carries the current word reversed. -/
def splitWsAux : List Char → List Char → List (List Char)
  | [], acc => if acc.isEmpty then [] else [acc.reverse]
  | c :: rest, acc =>
    if c.isWhitespace then
      if acc.isEmpty then splitWsAux rest [] else acc.reverse :: splitWsAux rest []
    else splitWsAux rest (c :: acc)

/-- Python `s.split()` with no argument. -/
def splitWords (s : String) : List String := (splitWsAux s.data []).map (fun l => ⟨l⟩)

/-- Python `s.strip()`. -/
def trimS (s : String) : String :=
  ⟨List.dropWhile Char.isWhitespace
     ((List.dropWhile Char.isWhitespace s.data.reverse).reverse)⟩

/-- Python `s.isdigit()` for the ASCII tokens the agent feeds it. -/
def isDigitS (s : String) : Bool := !s.data.isEmpty && s.data.all Char.isDigit

/-- Python `int(s)` on an all-digit string. -/
def digitsToNat (s : String) : Nat :=
  s.data.foldl (fun n c => n * 10 + (c.toNat - 48)) 0

/-- Python `sep.join(parts)`. -/
def intercalateS (sep : String) : List String → String
  | [] => ""
  | h :: t => t.foldl (fun acc x => acc ++ sep ++ x) h

/-- Python `' '.join(parts)`. -/
def joinSpace (l : List String) : String := intercalateS " " l

/-- Python `s.replace("Z", "+00:00")` as used on ISO timestamps. -/
def replaceZ (s : String) : String := intercalateS "+00:00" (splitOnS s "Z")

/-- The char-list tail of `l` strictly after its first newline, when one
exists (Python `s.split('\n', 1)[1]`). -/
def afterFirstNl : List Char → Option (List Char)
  | [] => none
  | c :: rest => if c == '\n' then some rest else afterFirstNl rest

/-- Python `s.rsplit('\n', 1)[0]`: everything before the last newline,
or all of `l` when there is none. -/
def upToLastNl (l : List Char) : List Char :=
  match afterFirstNl l.reverse with
  | none => l
  | some rest => rest.reverse

/-! ## Calendar event objects (Python dicts, as the Google API returns them) -/

/-- A JSON-like value as stored in a calendar event dict: a string, a nested
dict (as an insertion-ordered association list), or an array. -/
inductive JVal where
  | str : String → JVal
  | obj : List (String × JVal) → JVal
  | arr : List JVal → JVal

/-- A calendar event body / response: a Python dict keyed by strings. -/
abbrev EventObj := List (String × JVal)

/-- Python `d[k]` / `d.get(k)` on a dict: the first binding of `k`. -/
def lookupJ : List (String × JVal) → String → Option JVal
  | [], _ => none
  | (k', v) :: rest, k => if k' == k then some v else lookupJ rest k

/-- Python `d[k] = v`: overwrite the binding in place, or append a new one. -/
def setKey : List (String × JVal) → String → JVal → List (String × JVal)
  | [], k, v => [(k, v)]
  | (k', v') :: rest, k, v =>
    if k' == k then (k, v) :: rest else (k', v') :: setKey rest k v

/-- Python `d.update(changes)` on a dict: each binding of `changes` is
written into `d` in order. -/
def dictUpdate (d changes : List (String × JVal)) : List (String × JVal) :=
  changes.foldl (fun acc kv => setKey acc kv.1 kv.2) d

/-- `event[k]` expecting a string value; a missing key raises `KeyError`,
which the agent's `except` blocks catch. -/
def getStr (e : EventObj) (k : String) : Except String String :=
  match lookupJ e k with
  | some (.str s) => .ok s
  | some _ => .error ("TypeError: " ++ k)
  | none => .error ("KeyError: \x27" ++ k ++ "\x27")

/-- Python `str(x)` on a dict value, used only where the agent interpolates a
value it expects to be a string into a reply (`dict`/`list` reprs are
abstracted). -/
def jvalText : JVal → String
  | .str s => s
  | .obj _ => "object"
  | .arr _ => "array"

/-- `created_event.get('htmlLink')` interpolated into an f-string: a missing
key renders as Python `None`. -/
def getLink (e : EventObj) : String :=
  match lookupJ e "htmlLink" with
  | some v => jvalText v
  | none => "None"

/-- `event['start'].get('dateTime', event['start'].get('date'))` followed by
use of the result: a missing `'start'` key raises `KeyError`, and when both
timestamp keys are absent the later `None.replace` raises `AttributeError`. -/
def eventStartStr (e : EventObj) : Except String String :=
  match lookupJ e "start" with
  | some (.obj so) =>
    (match lookupJ so "dateTime" with
     | some (.str s) => .ok s
     | _ =>
       match lookupJ so "date" with
       | some (.str s) => .ok s
       | _ => .error "AttributeError: \x27NoneType\x27 object has no attribute \x27replace\x27")
  | _ => .error "KeyError: \x27start\x27"

/-! ## The environment of external collaborators -/

/-- One chat message handed to the LLM collaborator. -/
structure ChatMsg where
  role : String
  content : String
deriving DecidableEq, Repr

/-- The summary / start_time / optional location dict produced by
`json.loads` on the LLM's extraction reply (`event_info` in the source;
required-field access folded into the parse, which fails exactly when the
reply is not the demanded JSON shape). -/
structure EventInfo where
  summary : String
  startTime : String
  location : Option String
deriving DecidableEq, Repr

/-- Decoded weather fetch: `response.status_code == 200` flag, the
description, and the collaborator-rendered temperature text (the
floating-point `:.1f` rendering is not shallowly embeddable). -/
structure WeatherFetch where
  ok : Bool
  description : String
  tempText : String
deriving DecidableEq, Repr

/-- Decoded pair of distance-matrix fetches (driving + walking). -/
structure TravelFetch where
  distance : String
  drive : String
  walk : String
deriving DecidableEq, Repr

/-- The process state and external collaborators `MistralAgent` talks to.
`Except.error` models the call raising.  `upcoming` is the backend's
ordered-by-start-time list of upcoming events, of which a
`list(maxResults=n)` call returns the first `n`. -/
structure Env where
  location : String
  tzName : String
  nowMin : Int
  weatherApiKey : Option String
  mapsApiKey : Option String
  weather : Except String WeatherFetch
  travel : String → Except String TravelFetch
  upcoming : Except String (List EventObj)
  chat : List ChatMsg → Except String String
  parseEventJson : String → Except String EventInfo
  parseIso : String → Except String Int
  insert : EventObj → Except String EventObj
  getEvent : String → Except String EventObj
  update : String → EventObj → Except String EventObj
  isoRender : Int → String
  clockRender : Int → String
  clockTzRender : Int → String
  ipDetails : Except String String

/-- Per-user conversation store: `self.conversation_history`, a dict from
user id to message list. -/
abbrev Memory := List (String × List ChatMsg)

/-- Dict lookup in the conversation store. -/
def histLookup : Memory → String → Option (List ChatMsg)
  | [], _ => none
  | (u', h) :: rest, u => if u' == u then some h else histLookup rest u

/-- Dict write in the conversation store. -/
def setHistory : Memory → String → List ChatMsg → Memory
  | [], u, h => [(u, h)]
  | (u', h') :: rest, u, h =>
    if u' == u then (u, h) :: rest else (u', h') :: setHistory rest u h

/-- `get_conversation_history`: returns the user's history, creating an
empty entry on first access (so the store is returned updated). -/
def getConversationHistory (mem : Memory) (u : String) : List ChatMsg × Memory :=
  match histLookup mem u with
  | some h => (h, mem)
  | none => ([], setHistory mem u [])

/-- `self.memory_limit = 10`. -/
def memoryLimit : Nat := 10

/-- The per-user core of `add_to_history`: append the turn, then pop the
front entry when the length exceeds the memory limit. -/
def pushTurn (history : List ChatMsg) (t : ChatMsg) : List ChatMsg :=
  let h := history ++ [t]
  if memoryLimit < h.length then h.tail else h

/-- `add_to_history(user_id, role, content)`. -/
def add_to_history (mem : Memory) (u role content : String) : Memory :=
  let hm := getConversationHistory mem u
  setHistory hm.2 u (pushTurn hm.1 ⟨role, content⟩)

/-- The user's stored history as read back (`get` view; missing user reads
as the freshly created empty list). -/
def histOf (mem : Memory) (u : String) : List ChatMsg :=
  (histLookup mem u).getD []

/-! ## Calendar and context helpers -/

/-- `get_upcoming_events(max_results)`: the backend's ordered upcoming list,
truncated to `max_results`; a failing list call raises. -/
def get_upcoming_events (env : Env) (maxResults : Nat) : Except String (List EventObj) :=
  env.upcoming.map (fun l => l.take maxResults)

/-- `get_weather`: `None` without an API key; the fetch is wrapped in
`try/except`, and a non-200 status also yields `None`.  The happy path
renders the one-line weather summary for the city prefix of the location. -/
def get_weather (env : Env) : Option String :=
  match env.weatherApiKey with
  | none => none
  | some _ =>
    let city := trimS ((splitOnS env.location ",").headD "")
    match env.weather with
    | .error _ => none
    | .ok w =>
      if w.ok then
        some ("Current weather in " ++ city ++ ": " ++ w.description ++ ", " ++ w.tempText)
      else none

/-- `get_travel_time(destination)`: `None` without a maps key; the two
distance-matrix fetches sit under a bare `except` returning `None`. -/
def get_travel_time (env : Env) (destination : String) : Option String :=
  match env.mapsApiKey with
  | none => none
  | some _ =>
    match env.travel destination with
    | .error _ => none
    | .ok t =>
      some ("Distance: " ++ t.distance ++ "\nDriving time: " ++ t.drive
            ++ "\nWalking time: " ++ t.walk)

/-- `get_next_event_travel_info`: no `try/except` of its own, so a failing
calendar fetch or a malformed event raises out of it. -/
def get_next_event_travel_info (env : Env) : Except String String := do
  let events ← get_upcoming_events env 1
  match events with
  | [] => pure "No upcoming events found."
  | event :: _ =>
    match lookupJ event "location" with
    | some (.str loc) =>
      if loc == "" then pure "Next event has no location specified."
      else do
        let startStr ← eventStartStr event
        let startMin ← env.parseIso (replaceZ startStr)
        let summary ← getStr event "summary"
        match get_travel_time env loc with
        | none => pure ("Could not calculate travel time to: " ++ loc)
        | some ti =>
          pure ("Next event: " ++ summary ++ " at " ++ env.clockRender startMin
                ++ "\nLocation: " ++ loc ++ "\n" ++ ti)
    | _ => pure "Next event has no location specified."

/-- One attendee line of `get_event_details`; `attendee['email']` raises
`KeyError` when absent, the other fields fall back via `.get`. -/
def attendeeLine (a : JVal) : Except String String :=
  match a with
  | .obj fields => do
    let email ← getStr fields "email"
    let status := match lookupJ fields "responseStatus" with
      | some (.str s) => s
      | _ => "no response"
    let name := match lookupJ fields "displayName" with
      | some (.str n) => n
      | _ => email
    pure ("\n    - " ++ name ++ " (" ++ status ++ ")")
  | _ => .error "TypeError: attendee"

/-- `get_event_details(event)`: title line, optional location plus travel
estimate, optional attendee list.  Not under any `try/except` on the
general-chat path, so malformed events raise through it. -/
def get_event_details (env : Env) (event : EventObj) : Except String String := do
  let startStr ← eventStartStr event
  let startMin ← env.parseIso (replaceZ startStr)
  let summary ← getStr event "summary"
  let details := "- " ++ summary ++ " (" ++ env.clockTzRender startMin ++ ")"
  let details :=
    match lookupJ event "location" with
    | some locV =>
      let d := details ++ "\n  Location: " ++ jvalText locV
      (match env.mapsApiKey with
       | none => d
       | some _ =>
         match get_travel_time env (jvalText locV) with
         | some ti => d ++ "\n  " ++ ti
         | none => d)
    | none => details
  match lookupJ event "attendees" with
  | some (.arr atts) => do
    let lines ← atts.mapM attendeeLine
    pure (details ++ "\n  Attendees:" ++ String.join lines)
  | some _ => .error "TypeError: attendees"
  | none => pure details

/-! ## Event creation -/

/-- `start_dt.replace(hour=12, minute=0, second=0, microsecond=0)` applied
to `now + timedelta(days=1)`: noon of the following day, on the
minutes-since-epoch timeline (1440 minutes per day). -/
def tomorrowNoon (nowMin : Int) : Int :=
  ((nowMin + 1440).fdiv 1440) * 1440 + 720

/-- The start instant `create_event` resolves: a `"tomorrow"` phrase maps
to tomorrow noon, otherwise the string is ISO-parsed (the `astimezone`
conversions preserve the instant). -/
def resolveStart (env : Env) (startTime : String) : Except String Int :=
  if !(endsWithS startTime "Z") then
    if pyIn "tomorrow" (lowerS startTime) then pure (tomorrowNoon env.nowMin)
    else env.parseIso (replaceZ startTime)
  else env.parseIso (replaceZ startTime)

/-- The start/end instants `create_event` resolves: a missing end time
defaults to one hour after the start. -/
def createEventTimes (env : Env) (startTime : String) (endTime : Option String) :
    Except String (Int × Int) := do
  let startDt ← resolveStart env startTime
  let endDt ←
    match endTime with
    | none => pure (startDt + 60)
    | some e => env.parseIso (replaceZ e)
  pure (startDt, endDt)

/-- The event body `create_event` submits to `events().insert`. -/
def mkCreateBody (env : Env) (summary : String) (startMin endMin : Int)
    (location : Option String) : EventObj :=
  [("summary", .str summary),
   ("start", .obj [("dateTime", .str (env.isoRender startMin)),
                   ("timeZone", .str env.tzName)]),
   ("end", .obj [("dateTime", .str (env.isoRender endMin)),
                 ("timeZone", .str env.tzName)])]
  ++ (match location with
      | some l => [("location", JVal.str l)]
      | none => [])

/-- The body of `create_event`'s `try` block: resolve times, insert, then
re-fetch the created event to verify it (an empty dict is falsy). -/
def createEventCore (env : Env) (summary startTime : String)
    (endTime : Option String) (location : Option String) : Except String String := do
  let times ← createEventTimes env startTime endTime
  let body := mkCreateBody env summary times.1 times.2 location
  let created ← env.insert body
  let cid ← getStr created "id"
  let verifyEv ← env.getEvent cid
  if verifyEv.isEmpty then pure "Event creation failed verification"
  else pure ("Event created successfully: " ++ getLink verifyEv)

/-- `create_event`: the whole body is under `try/except`, so it always
returns a reply string. -/
def create_event (env : Env) (summary startTime : String)
    (endTime : Option String) (location : Option String) : String :=
  match createEventCore env summary startTime endTime location with
  | .ok s => s
  | .error e => "Failed to create event: " ++ e

/-! ## Event modification -/

/-- The merge loop of `modify_event`: each change is written over the copy
of the fetched event; a dict-valued change is merged key-wise into the
existing dict (created empty when the key is absent), and calling `.update`
on a non-dict existing value raises `AttributeError`. -/
def applyChanges : EventObj → List (String × JVal) → Except String EventObj
  | acc, [] => .ok acc
  | acc, (k, v) :: rest =>
    match v with
    | .obj d =>
      (match lookupJ acc k with
       | none => applyChanges (setKey acc k (.obj (dictUpdate [] d))) rest
       | some (.obj e) => applyChanges (setKey acc k (.obj (dictUpdate e d))) rest
       | some _ =>
         .error "AttributeError: \x27str\x27 object has no attribute \x27update\x27")
    | _ => applyChanges (setKey acc k v) rest

/-- The body of `modify_event`'s `try` block: fetch, merge, update with
attendee notification. -/
def modifyCore (env : Env) (eventId : String) (changes : List (String × JVal)) :
    Except String String := do
  let event ← env.getEvent eventId
  let updated ← applyChanges event changes
  let result ← env.update eventId updated
  pure ("Event updated successfully: " ++ getLink result)

/-- `modify_event(event_id, changes)`: always returns a reply string. -/
def modify_event (env : Env) (eventId : String) (changes : List (String × JVal)) : String :=
  match modifyCore env eventId changes with
  | .ok s => s
  | .error e => "Failed to modify event: " ++ e

/-! ## Event resolution by name and the three name-based mutations -/

/-- The find loop shared by `postpone_event` / `update_event_location` /
`update_event_attendees`: first event whose summary equals the given name
case-insensitively; a summary-less event raises `KeyError`. -/
def findTarget : List EventObj → String → Except String (Option EventObj)
  | [], _ => .ok none
  | e :: rest, name => do
    let s ← getStr e "summary"
    if lowerS s == lowerS name then pure (some e) else findTarget rest name

/-- The body of `postpone_event`'s `try` block. -/
def postponeCore (env : Env) (eventSummary : String) (hours : Nat) :
    Except String String := do
  let events ← get_upcoming_events env 10
  let target ← findTarget events eventSummary
  match target with
  | none => pure ("Could not find event \x27" ++ eventSummary ++ "\x27")
  | some ev => do
    let startStr ←
      (match lookupJ ev "start" with
       | some (.obj so) => getStr so "dateTime"
       | _ => .error "KeyError: \x27start\x27")
    let endStr ←
      (match lookupJ ev "end" with
       | some (.obj eo) => getStr eo "dateTime"
       | _ => .error "KeyError: \x27end\x27")
    let startMin ← env.parseIso (replaceZ startStr)
    let endMin ← env.parseIso (replaceZ endStr)
    let newStart := startMin + 60 * (hours : Int)
    let newEnd := endMin + 60 * (hours : Int)
    let changes : List (String × JVal) :=
      [("start", .obj [("dateTime", .str (env.isoRender newStart)),
                       ("timeZone", .str env.tzName)]),
       ("end", .obj [("dateTime", .str (env.isoRender newEnd)),
                     ("timeZone", .str env.tzName)])]
    let tid ← getStr ev "id"
    let result := modify_event env tid changes
    pure ("Event \x27" ++ eventSummary ++ "\x27 postponed by " ++ toString hours
          ++ " hours.\n" ++ result)

/-- `postpone_event(event_summary, hours)`: always returns a reply string. -/
def postpone_event (env : Env) (eventSummary : String) (hours : Nat) : String :=
  match postponeCore env eventSummary hours with
  | .ok s => s
  | .error e => "Failed to postpone event: " ++ e

/-- The body of `update_event_location`'s `try` block. -/
def updateLocationCore (env : Env) (eventSummary newLocation : String) :
    Except String String := do
  let events ← get_upcoming_events env 10
  let target ← findTarget events eventSummary
  match target with
  | none => pure ("Could not find event \x27" ++ eventSummary ++ "\x27")
  | some ev => do
    let tid ← getStr ev "id"
    let result := modify_event env tid [("location", .str newLocation)]
    pure ("Updated location for \x27" ++ eventSummary ++ "\x27 to: " ++ newLocation
          ++ "\n" ++ result)

/-- `update_event_location(event_summary, new_location)`. -/
def update_event_location (env : Env) (eventSummary newLocation : String) : String :=
  match updateLocationCore env eventSummary newLocation with
  | .ok s => s
  | .error e => "Failed to update event location: " ++ e

/-- `target_event.get('attendees', [])`, iterated: a non-list value raises. -/
def attsOf (e : EventObj) : Except String (List JVal) :=
  match lookupJ e "attendees" with
  | some (.arr l) => .ok l
  | some _ => .error "TypeError: attendees"
  | none => .ok []

/-- `{att['email'] for att in existing_attendees}`: each attendee must be a
dict carrying an `'email'` string. -/
def attendeeEmails : List JVal → Except String (List String)
  | [] => .ok []
  | a :: rest => do
    let e ← (match a with
      | .obj fields => getStr fields "email"
      | _ => .error "TypeError: attendee")
    let es ← attendeeEmails rest
    pure (e :: es)

/-- An attendee dict built from a bare email. -/
def mkAtt (email : String) : JVal := .obj [("email", .str email)]

/-- `existing_attendees + [{'email': e} for e in attendees if e not in
existing_emails]`: the merged attendee list submitted to the update. -/
def mergeAttendees (existing : List JVal) (existingEmails requested : List String) :
    List JVal :=
  existing ++ (requested.filter (fun e => !(existingEmails.contains e))).map mkAtt

/-- The body of `update_event_attendees`'s `try` block. -/
def updateAttendeesCore (env : Env) (eventSummary : String) (attendees : List String) :
    Except String String := do
  let events ← get_upcoming_events env 10
  let target ← findTarget events eventSummary
  match target with
  | none => pure ("Could not find event \x27" ++ eventSummary ++ "\x27")
  | some ev => do
    let existing ← attsOf ev
    let existingEmails ← attendeeEmails existing
    let allAtts := mergeAttendees existing existingEmails attendees
    let tid ← getStr ev "id"
    let result := modify_event env tid [("attendees", .arr allAtts)]
    pure ("Updated attendees for \x27" ++ eventSummary ++ "\x27\nNew attendees: "
          ++ intercalateS ", " attendees ++ "\n" ++ result)

/-- `update_event_attendees(event_summary, attendees)`. -/
def update_event_attendees (env : Env) (eventSummary : String)
    (attendees : List String) : String :=
  match updateAttendeesCore env eventSummary attendees with
  | .ok s => s
  | .error e => "Failed to update event attendees: " ++ e

/-! ## Intent classification -/

/-- The fixed `location_queries` table of `run`. -/
def locationQueries : List String :=
  ["what is my location",
   "where am i",
   "what\x27s my location",
   "where",
   "location",
   "what is my current location",
   "tell me my location"]

/-- The fixed event-creation phrase table of `run`. -/
def createPhrases : List String :=
  ["schedule a", "create event", "add meeting", "new appointment"]

/-- `any(query == msg_lower for query in location_queries)`: exact match. -/
def isLocationQuery (m : String) : Bool := locationQueries.any (fun q => q == m)

/-- `msg_lower == "forget" or msg_lower == "reset"`. -/
def isResetMsg (m : String) : Bool := m == "forget" || m == "reset"

/-- `any(phrase in msg_lower for phrase in ...)`: creation substrings. -/
def isCreateMsg (m : String) : Bool := createPhrases.any (fun p => pyIn p m)

/-- `'postpone' in msg_lower`. -/
def isPostponeMsg (m : String) : Bool := pyIn "postpone" m

/-- `'update location' in msg_lower or 'change location' in msg_lower`. -/
def isUpdateLocMsg (m : String) : Bool :=
  pyIn "update location" m || pyIn "change location" m

/-- `'add attendee' in msg_lower or 'invite' in msg_lower`. -/
def isAttendeesMsg (m : String) : Bool :=
  pyIn "add attendee" m || pyIn "invite" m

/-- The closed set of intents of §3, one per dispatch branch of `run`. -/
inductive Intent where
  | LocationQuery
  | Reset
  | CreateEvent
  | Postpone
  | UpdateLocation
  | UpdateAttendees
  | GeneralChat
deriving DecidableEq, Repr

/-- The intent `run` dispatches a (lowercased) message to: the source's
guard chain, first match winning. -/
def classify (m : String) : Intent :=
  if isLocationQuery m then .LocationQuery
  else if isResetMsg m then .Reset
  else if isCreateMsg m then .CreateEvent
  else if isPostponeMsg m then .Postpone
  else if isUpdateLocMsg m then .UpdateLocation
  else if isAttendeesMsg m then .UpdateAttendees
  else .GeneralChat

/-! ## Parameter extraction heuristics -/

/-- The token scan of the postpone branch.  `prev` is the previous token
(`words[i-1]`), the state is `(event_name, hours)`.  A `'postpone'` token
with a successor stores that successor as the event name; otherwise an
`'hour'`/`'hours'` token whose predecessor is all digits stores that number
(later matches overwrite earlier ones, as in the source loop). -/
def scanPP (prev : Option String) (st : Option String × Nat) :
    List String → Option String × Nat
  | [] => st
  | w :: rest =>
    let name :=
      if w == "postpone" then
        match rest with
        | next :: _ => some next
        | [] => st.1
      else st.1
    let hours :=
      if !(w == "postpone") && (w == "hour" || w == "hours") then
        match prev with
        | some p => if isDigitS p then digitsToNat p else st.2
        | none => st.2
      else st.2
    scanPP (some w) (name, hours) rest

/-- The postpone branch's extraction: scan the whitespace tokens of the
lowercased message, event name `None` and hours defaulting to 1. -/
def postponeExtract (msgLower : String) : Option String × Nat :=
  scanPP none (none, 1) (splitWords msgLower)

/-- Outcome of the update-location branch's parsing phase. -/
inductive UpdLocParse where
  | proceed (eventName newLocation : String)
  | usageNoPhrase
  | usageNoConnector
  | usageMissing
  | unpackErr (msg : String)
deriving DecidableEq, Repr

/-- The strip-and-check tail of the update-location parse: both sides
trimmed, and both must be non-empty. -/
def finishUpdLoc (a b : String) : UpdLocParse :=
  let n := trimS a
  let l := trimS b
  if n != "" && l != "" then .proceed n l else .usageMissing

/-- Python `s.split(p)[1]`: the piece between the first and second
occurrence of `p` (the agent only evaluates it under a `p in s` guard, so
the out-of-range default is unreached). -/
def pyPart1 (m p : String) : String := (splitOnS m p).getD 1 ""

/-- The update-location branch's parsing phase: take the piece after the
first `"update location of"` (else `"change location of"`) occurrence, then
tuple-unpack its split on `" to "` (preferred) or `" at "` — a split with
more than two pieces raises `ValueError`, caught by the branch's `except`. -/
def parseUpdateLocation (m : String) : UpdLocParse :=
  let partsOpt : Option String :=
    if pyIn "update location of" m then
      some (pyPart1 m "update location of")
    else if pyIn "change location of" m then
      some (pyPart1 m "change location of")
    else none
  match partsOpt with
  | none => .usageNoPhrase
  | some parts =>
    if pyIn " to " parts then
      match splitOnS parts " to " with
      | [a, b] => finishUpdLoc a b
      | _ => .unpackErr "too many values to unpack (expected 2)"
    else if pyIn " at " parts then
      match splitOnS parts " at " with
      | [a, b] => finishUpdLoc a b
      | _ => .unpackErr "too many values to unpack (expected 2)"
    else .usageNoConnector

/-- First index `i > 0` whose token is `'to'` or `'for'` (the attendee
branch's connector search; the loop breaks at the first hit). -/
def findConnAux : Nat → List String → Option Nat
  | _, [] => none
  | i, w :: rest =>
    if (w == "to" || w == "for") && decide (0 < i) then some i
    else findConnAux (i + 1) rest

/-- Connector search over the whole token list. -/
def findConn (words : List String) : Option Nat := findConnAux 0 words

/-! ## The remaining collaborator-facing helpers of `run` -/

/-- `get_location_details`: a successful ip-api fetch returns the rendered
detail block (carried by the collaborator, as it interpolates
float-formatted coordinates); any failure falls back to the stored
location line. -/
def get_location_details (env : Env) : String :=
  match env.ipDetails with
  | .ok s => s
  | .error _ => "📍 Location: " ++ env.location

/-- The fixed free-form system prompt. -/
def systemPrompt : String :=
  "You are a helpful assistant with access to my calendar and location information.\n"
  ++ "When responding to location queries, return the exact formatted location details provided without reformatting.\n"
  ++ "For other queries, provide helpful and concise responses."

/-- The JSON-extraction system instruction of the creation branch. -/
def createSystemPrompt : String :=
  "RESPOND WITH RAW JSON ONLY. NO CODE BLOCKS. NO MARKDOWN.\n"
  ++ "Example:\n\x7b\n    \"summary\": \"Event title here\",\n"
  ++ "    \"start_time\": \"2025-02-21T12:00:00-05:00\",\n"
  ++ "    \"location\": \"Location here\"\n\x7d"

/-- The two-message extraction request of the creation branch. -/
def createMessages (content : String) : List ChatMsg :=
  [⟨"system", createSystemPrompt⟩, ⟨"user", "Create this event: " ++ content⟩]

/-- Markdown code-fence stripping of the creation branch.  A fenced reply
with no newline hits `split('\n', 1)[1]` out of range. -/
def stripFences (c : String) : Except String String :=
  if startsWithS c "```" then
    match afterFirstNl c.data with
    | none => .error "IndexError: list index out of range"
    | some rest => .ok ⟨upToLastNl rest⟩
  else .ok c

/-- The creation branch's `try` body: one constrained LLM call, fence
stripping, JSON parse, then `create_event` invoked with `end_time=None`. -/
def createBranchCore (env : Env) (content : String) : Except String String := do
  let resp ← env.chat (createMessages content)
  let c ← stripFences (trimS resp)
  let info ← env.parseEventJson c
  pure (create_event env info.summary info.startTime none info.location)

/-- The update-location branch after parsing: each parse outcome maps to its
reply or to the mutation call. -/
def updateLocationBranch (env : Env) (msgLower : String) : String :=
  match parseUpdateLocation msgLower with
  | .proceed n l => update_event_location env n l
  | .usageNoPhrase => "Please use format: update location of [event name] to [new location]"
  | .usageNoConnector => "Please specify the new location using \x27to\x27 or \x27at\x27"
  | .usageMissing => "Please specify both the event name and new location."
  | .unpackErr e => "Failed to update event location: " ++ e

/-- The attendee branch: find the first `'to'`/`'for'` connector past index
0, join tokens 2..i as the event name, keep the `'@'`-containing tokens
after the connector as emails. -/
def attendeesBranch (env : Env) (msgLower : String) : String :=
  let words := splitWords msgLower
  match findConn words with
  | some i =>
    let eventName := joinSpace ((words.drop 2).take (i - 2))
    let atts := (words.drop (i + 1)).filter (fun w => pyIn "@" w)
    if eventName != "" && !atts.isEmpty then
      update_event_attendees env eventName atts
    else "Please specify the event name and attendee email addresses."
  | none => "Please specify the event name and attendee email addresses."

/-- `location_context`: the location line, plus the weather line when
`get_weather` produced one. -/
def buildLocationContext (env : Env) : String :=
  let base := "My location: " ++ env.location ++ "\n"
  match get_weather env with
  | some w => base ++ w ++ "\n"
  | none => base

/-- Keyword triggers for the calendar digest. -/
def calendarWords : List String := ["calendar", "schedule", "event", "meeting"]

/-- Keyword triggers for the travel estimate. -/
def travelWords : List String := ["far", "distance", "travel time", "how long"]

/-- `calendar_context`: a digest of the next five events when a calendar
keyword appears; the calendar fetch and the per-event detail rendering are
not under `try/except` here. -/
def buildCalendarContext (env : Env) (msgLower : String) : Except String String :=
  if calendarWords.any (fun w => pyIn w msgLower) then do
    let events ← get_upcoming_events env 5
    let parts ← events.mapM (get_event_details env)
    pure ("Here are my upcoming events:\n"
          ++ parts.foldl (fun acc d => acc ++ d ++ "\n") "")
  else pure ""

/-- Travel-context augmentation of `location_context` (truthiness of the
returned string gates the append). -/
def addTravelContext (env : Env) (msgLower : String) (locCtx : String) :
    Except String String :=
  if travelWords.any (fun w => pyIn w msgLower) then do
    let info ← get_next_event_travel_info env
    if info != "" then pure (locCtx ++ "\n" ++ info ++ "\n") else pure locCtx
  else pure locCtx

/-! ## The top-level handler -/

/-- `MistralAgent.run(message)`, with `userId` for `message.author.id` and
`msgContent` for `message.content`.  Returns the reply and the updated
conversation store; `Except.error` models an exception propagating to the
caller (which only the general-chat path can produce, as its calendar
fetch, event-detail rendering and final LLM call sit outside any
`try/except`). -/
def run (env : Env) (mem : Memory) (userId msgContent : String) :
    Except String (String × Memory) :=
  let msgLower := lowerS msgContent
  if isLocationQuery msgLower then
    .ok (get_location_details env, mem)
  else
    let hm := getConversationHistory mem userId
    let history := hm.1
    let mem1 := hm.2
    if isResetMsg msgLower then
      .ok ("I\x27ve reset our conversation history.", setHistory mem1 userId [])
    else if isCreateMsg msgLower then
      match createBranchCore env msgContent with
      | .ok r => .ok ("✅ Event created!\n" ++ r, mem1)
      | .error e => .ok ("Failed to create event: " ++ e, mem1)
    else if isPostponeMsg msgLower then
      let pe := postponeExtract msgLower
      match pe.1 with
      | some name => .ok (postpone_event env name pe.2, mem1)
      | none => .ok ("Please specify which event to postpone.", mem1)
    else if isUpdateLocMsg msgLower then
      .ok (updateLocationBranch env msgLower, mem1)
    else if isAttendeesMsg msgLower then
      .ok (attendeesBranch env msgLower, mem1)
    else do
      let locCtx := buildLocationContext env
      let calCtx ← buildCalendarContext env msgLower
      let locCtx ← addTravelContext env msgLower locCtx
      let messages := ⟨"system", systemPrompt⟩ :: history
        ++ [⟨"user", locCtx ++ calCtx ++ "\n" ++ msgContent⟩]
      let reply ← env.chat messages
      let mem2 := add_to_history mem1 userId "user" msgContent
      let mem3 := add_to_history mem2 userId "assistant" reply
      pure (reply, mem3)

/-! ## Lemmas: conversation memory -/

/-- A sequence of single-turn appends for one user. -/
def applyTurns (mem : Memory) (u : String) (ts : List ChatMsg) : Memory :=
  ts.foldl (fun m t => add_to_history m u t.role t.content) mem

theorem histLookup_setHistory_self (mem : Memory) (u : String) (h : List ChatMsg) :
    histLookup (setHistory mem u h) u = some h := by
  induction mem with
  | nil => simp [setHistory, histLookup]
  | cons hd tl ih =>
    obtain ⟨u', h'⟩ := hd
    by_cases hu : u' == u
    · simp [setHistory, hu, histLookup]
    · simp [setHistory, hu, histLookup, ih]

theorem histOf_add_to_history (mem : Memory) (u role content : String) :
    histOf (add_to_history mem u role content) u =
      pushTurn (histOf mem u) ⟨role, content⟩ := by
  unfold add_to_history getConversationHistory histOf
  cases hl : histLookup mem u with
  | some h => simp [histLookup_setHistory_self, hl]
  | none => simp [histLookup_setHistory_self, hl]

theorem applyTurns_hist (ts : List ChatMsg) (mem : Memory) (u : String) :
    histOf (applyTurns mem u ts) u = ts.foldl pushTurn (histOf mem u) := by
  induction ts generalizing mem with
  | nil => rfl
  | cons t ts ih =>
    show histOf (applyTurns (add_to_history mem u t.role t.content) u ts) u = _
    rw [ih, histOf_add_to_history]
    rfl

theorem pushTurn_eq (h : List ChatMsg) (t : ChatMsg) (hle : h.length ≤ memoryLimit) :
    pushTurn h t = (h ++ [t]).drop (h.length + 1 - memoryLimit) := by
  unfold pushTurn
  rcases Nat.lt_or_ge h.length memoryLimit with hlt | hge
  · have : ¬ memoryLimit < (h ++ [t]).length := by simp; omega
    simp only [this, if_false]
    have : h.length + 1 - memoryLimit = 0 := by omega
    rw [this, List.drop_zero]
  · have heq : h.length = memoryLimit := le_antisymm hle hge
    have : memoryLimit < (h ++ [t]).length := by simp; omega
    simp only [this, if_true]
    have h1 : h.length + 1 - memoryLimit = 1 := by omega
    rw [h1, List.drop_one]

theorem pushTurn_foldl (ts : List ChatMsg) (h : List ChatMsg)
    (hle : h.length ≤ memoryLimit) :
    ts.foldl pushTurn h = (h ++ ts).drop (h.length + ts.length - memoryLimit) := by
  induction ts generalizing h with
  | nil =>
    simp only [List.foldl_nil, List.length_nil, List.append_nil]
    have h0 : h.length + 0 - memoryLimit = 0 := by omega
    rw [h0, List.drop_zero]
  | cons t ts ih =>
    have hstep := pushTurn_eq h t hle
    have hlen : (pushTurn h t).length ≤ memoryLimit := by
      rw [hstep, List.length_drop]
      simp only [List.length_append, List.length_cons, List.length_nil]
      omega
    show ts.foldl pushTurn (pushTurn h t) = _
    rw [ih _ hlen, hstep]
    have hd : h.length + 1 - memoryLimit ≤ (h ++ [t]).length := by
      simp only [List.length_append, List.length_cons, List.length_nil]
      omega
    rw [← List.drop_append_of_le_length hd, List.drop_drop]
    have hcons : h ++ t :: ts = (h ++ [t]) ++ ts := by simp
    rw [hcons]
    congr 1
    simp only [List.length_drop, List.length_append, List.length_cons,
      List.length_nil]
    omega

/-- C3: starting from an empty store, a user's history after
`memoryLimit + k` single-turn appends is exactly the last `memoryLimit`
turns in original order, and its length never exceeds the limit. -/
theorem conversation_memory_window (u : String) (ts : List ChatMsg) (k : Nat) :
    (ts.length = memoryLimit + k → histOf (applyTurns [] u ts) u = ts.drop k) ∧
    (histOf (applyTurns [] u ts) u).length ≤ memoryLimit := by
  have hfold : histOf (applyTurns [] u ts) u = ts.foldl pushTurn [] := by
    rw [applyTurns_hist]; rfl
  have hfull := pushTurn_foldl ts [] (by simp [memoryLimit])
  simp only [List.nil_append, List.length_nil, Nat.zero_add] at hfull
  constructor
  · intro hlen
    rw [hfold, hfull, hlen]
    congr 1
    omega
  · rw [hfold, hfull]
    simp [List.length_drop]
    omega

/-- Twelve concrete turns for the memory witness. -/
def turns12 : List ChatMsg :=
  [⟨"user", "m1"⟩, ⟨"assistant", "m2"⟩, ⟨"user", "m3"⟩, ⟨"assistant", "m4"⟩,
   ⟨"user", "m5"⟩, ⟨"assistant", "m6"⟩, ⟨"user", "m7"⟩, ⟨"assistant", "m8"⟩,
   ⟨"user", "m9"⟩, ⟨"assistant", "m10"⟩, ⟨"user", "m11"⟩, ⟨"assistant", "m12"⟩]

/-- Witness for C3: after 12 appends the stored history is the last 10
turns. -/
theorem conversation_memory_window_witness :
    turns12.length = memoryLimit + 2 ∧
      histOf (applyTurns [] "77" turns12) "77" = turns12.drop 2 :=
  ⟨by decide, (conversation_memory_window "77" turns12 2).1 (by decide)⟩

/-! ## Lemmas: intent classification -/

theorem classify_loc_iff (m : String) :
    classify m = .LocationQuery ↔ isLocationQuery m = true := by
  unfold classify
  split_ifs with a b c d e f <;> simp_all

theorem classify_reset_iff (m : String) :
    classify m = .Reset ↔ (isLocationQuery m = false ∧ isResetMsg m = true) := by
  unfold classify
  split_ifs with a b c d e f <;> simp_all

theorem classify_create_iff (m : String) :
    classify m = .CreateEvent ↔
      (isLocationQuery m = false ∧ isResetMsg m = false ∧ isCreateMsg m = true) := by
  unfold classify
  split_ifs with a b c d e f <;> simp_all

theorem classify_postpone_iff (m : String) :
    classify m = .Postpone ↔
      (isLocationQuery m = false ∧ isResetMsg m = false ∧ isCreateMsg m = false ∧
       isPostponeMsg m = true) := by
  unfold classify
  split_ifs with a b c d e f <;> simp_all

theorem classify_updloc_iff (m : String) :
    classify m = .UpdateLocation ↔
      (isLocationQuery m = false ∧ isResetMsg m = false ∧ isCreateMsg m = false ∧
       isPostponeMsg m = false ∧ isUpdateLocMsg m = true) := by
  unfold classify
  split_ifs with a b c d e f <;> simp_all

theorem classify_att_iff (m : String) :
    classify m = .UpdateAttendees ↔
      (isLocationQuery m = false ∧ isResetMsg m = false ∧ isCreateMsg m = false ∧
       isPostponeMsg m = false ∧ isUpdateLocMsg m = false ∧ isAttendeesMsg m = true) := by
  unfold classify
  split_ifs with a b c d e f <;> simp_all

theorem classify_general_iff (m : String) :
    classify m = .GeneralChat ↔
      (isLocationQuery m = false ∧ isResetMsg m = false ∧ isCreateMsg m = false ∧
       isPostponeMsg m = false ∧ isUpdateLocMsg m = false ∧ isAttendeesMsg m = false) := by
  unfold classify
  split_ifs with a b c d e f <;> simp_all

/-- C2: intent classification is total and deterministic (it is a function
into the seven-intent type), and follows the source's fixed precedence with
first match winning: each intent is selected exactly when its rule matches
and every earlier rule fails — exact location phrases, then exact
reset/forget, then creation substrings, then `"postpone"`, then
`"update location"`/`"change location"`, then `"add attendee"`/`"invite"`,
with general chat as the fallthrough. -/
theorem intent_classification_first_match (msg : String) :
    (classify (lowerS msg) = .LocationQuery ↔
       isLocationQuery (lowerS msg) = true) ∧
    (classify (lowerS msg) = .Reset ↔
       (isLocationQuery (lowerS msg) = false ∧ isResetMsg (lowerS msg) = true)) ∧
    (classify (lowerS msg) = .CreateEvent ↔
       (isLocationQuery (lowerS msg) = false ∧ isResetMsg (lowerS msg) = false ∧
        isCreateMsg (lowerS msg) = true)) ∧
    (classify (lowerS msg) = .Postpone ↔
       (isLocationQuery (lowerS msg) = false ∧ isResetMsg (lowerS msg) = false ∧
        isCreateMsg (lowerS msg) = false ∧ isPostponeMsg (lowerS msg) = true)) ∧
    (classify (lowerS msg) = .UpdateLocation ↔
       (isLocationQuery (lowerS msg) = false ∧ isResetMsg (lowerS msg) = false ∧
        isCreateMsg (lowerS msg) = false ∧ isPostponeMsg (lowerS msg) = false ∧
        isUpdateLocMsg (lowerS msg) = true)) ∧
    (classify (lowerS msg) = .UpdateAttendees ↔
       (isLocationQuery (lowerS msg) = false ∧ isResetMsg (lowerS msg) = false ∧
        isCreateMsg (lowerS msg) = false ∧ isPostponeMsg (lowerS msg) = false ∧
        isUpdateLocMsg (lowerS msg) = false ∧ isAttendeesMsg (lowerS msg) = true)) ∧
    (classify (lowerS msg) = .GeneralChat ↔
       (isLocationQuery (lowerS msg) = false ∧ isResetMsg (lowerS msg) = false ∧
        isCreateMsg (lowerS msg) = false ∧ isPostponeMsg (lowerS msg) = false ∧
        isUpdateLocMsg (lowerS msg) = false ∧ isAttendeesMsg (lowerS msg) = false)) :=
  ⟨classify_loc_iff _, classify_reset_iff _, classify_create_iff _,
   classify_postpone_iff _, classify_updloc_iff _, classify_att_iff _,
   classify_general_iff _⟩

/-! ## Concrete environments for counterexamples and witnesses -/

/-- A healthy calendar and collaborators, but an LLM chat endpoint whose
calls raise. -/
def envChatDown : Env where
  location := "Palo Alto, California, United States"
  tzName := "America/Los_Angeles"
  nowMin := 1000000
  weatherApiKey := none
  mapsApiKey := none
  weather := .error "no key"
  travel := fun _ => .error "unreachable"
  upcoming := .ok []
  chat := fun _ => .error "boom"
  parseEventJson := fun _ => .error "bad json"
  parseIso := fun _ => .ok 5000
  insert := fun _ => .ok [("id", .str "1"), ("htmlLink", .str "L")]
  getEvent := fun _ => .ok [("id", .str "1"), ("htmlLink", .str "L")]
  update := fun _ _ => .ok [("htmlLink", .str "LU")]
  isoRender := fun _ => "t"
  clockRender := fun _ => "t"
  clockTzRender := fun _ => "t"
  ipDetails := .error "down"

/-- A healthy LLM, but a calendar whose list call raises. -/
def envCalDown : Env where
  location := "Palo Alto, California, United States"
  tzName := "America/Los_Angeles"
  nowMin := 1000000
  weatherApiKey := some "wk"
  mapsApiKey := none
  weather := .error "WeatherDown"
  travel := fun _ => .error "unreachable"
  upcoming := .error "CalendarDown"
  chat := fun _ => .ok "sure"
  parseEventJson := fun _ => .error "bad json"
  parseIso := fun _ => .ok 5000
  insert := fun _ => .ok [("id", .str "1"), ("htmlLink", .str "L")]
  getEvent := fun _ => .ok [("id", .str "1"), ("htmlLink", .str "L")]
  update := fun _ _ => .ok [("htmlLink", .str "LU")]
  isoRender := fun _ => "t"
  clockRender := fun _ => "t"
  clockTzRender := fun _ => "t"
  ipDetails := .error "down"

/-! ## C1: does the handler ever raise? -/

/-- Counterexample to C1 as stated: with a failing LLM chat endpoint, a
plain general-chat message makes `run` propagate the exception to its
caller instead of resolving to a reply text. -/
theorem run_raises_on_chat_failure :
    run envChatDown [] "u" "hello" = .error "boom" := by rfl

/-- C1 (amended): on every branch other than general chat — location query,
reset, event creation, postpone, update-location, update-attendees — `run`
never raises: each failure path resolves to a user-facing reply.  (On the
general-chat branch, a failing calendar fetch or LLM chat call propagates,
as the counterexample shows.) -/
theorem run_no_raise_off_general_chat (env : Env) (mem : Memory) (u msg : String)
    (h : classify (lowerS msg) ≠ .GeneralChat) :
    (run env mem u msg).isOk = true := by
  simp only [run]
  cases hb1 : isLocationQuery (lowerS msg) with
  | true => simp only [hb1, if_true]; rfl
  | false =>
  cases hb2 : isResetMsg (lowerS msg) with
  | true => simp only [hb1, hb2, Bool.false_eq_true, if_false, if_true]; rfl
  | false =>
  cases hb3 : isCreateMsg (lowerS msg) with
  | true =>
    simp only [hb1, hb2, hb3, Bool.false_eq_true, if_false, if_true]
    cases createBranchCore env msg <;> rfl
  | false =>
  cases hb4 : isPostponeMsg (lowerS msg) with
  | true =>
    simp only [hb1, hb2, hb3, hb4, Bool.false_eq_true, if_false, if_true]
    cases (postponeExtract (lowerS msg)).1 <;> rfl
  | false =>
  cases hb5 : isUpdateLocMsg (lowerS msg) with
  | true =>
    simp only [hb1, hb2, hb3, hb4, hb5, Bool.false_eq_true, if_false, if_true]
    rfl
  | false =>
  cases hb6 : isAttendeesMsg (lowerS msg) with
  | true =>
    simp only [hb1, hb2, hb3, hb4, hb5, hb6, Bool.false_eq_true, if_false, if_true]
    rfl
  | false =>
    exact absurd ((classify_general_iff (lowerS msg)).mpr
      ⟨hb1, hb2, hb3, hb4, hb5, hb6⟩) h

/-- Witness for C1 (amended): a reset message on the chat-down environment
still yields a reply. -/
theorem run_no_raise_off_general_chat_witness :
    classify (lowerS "reset") ≠ Intent.GeneralChat ∧
      (run envChatDown [] "u" "reset").isOk = true :=
  ⟨by decide, run_no_raise_off_general_chat envChatDown [] "u" "reset" (by decide)⟩

/-! ## C4: graceful degradation of context assembly -/

/-- Counterexample to C4 as stated: a failing calendar-listing collaborator
does not merely omit the calendar section — with a calendar keyword in the
message, the whole general-chat turn fails (the exception propagates),
even though the LLM itself is healthy. -/
theorem run_raises_on_calendar_failure :
    run envCalDown [] "u" "meeting" = .error "CalendarDown" := by rfl

/-- C4 (amended): failures of the weather and maps/travel collaborators
during context assembly only omit their own section — a raising weather
fetch leaves the location line and drops only the weather line, a raising
distance-matrix fetch makes the travel estimate `None` — and such a turn
still completes with the LLM reply.  (A calendar-listing failure, by
contrast, fails the whole turn, per the counterexample.) -/
theorem context_weather_failure_degrades (env : Env) (mem : Memory)
    (u msg reply errW : String)
    (hw : env.weather = .error errW)
    (hgen : classify (lowerS msg) = .GeneralChat)
    (hcal : calendarWords.any (fun w => pyIn w (lowerS msg)) = false)
    (htrv : travelWords.any (fun w => pyIn w (lowerS msg)) = false)
    (hchat : ∀ ms, env.chat ms = .ok reply) :
    buildLocationContext env = "My location: " ++ env.location ++ "\n" ∧
    (∀ dest errT, env.travel dest = .error errT → get_travel_time env dest = none) ∧
    run env mem u msg =
      .ok (reply,
        add_to_history (add_to_history (getConversationHistory mem u).2
          u "user" msg) u "assistant" reply) := by
  obtain ⟨hb1, hb2, hb3, hb4, hb5, hb6⟩ := (classify_general_iff _).mp hgen
  refine ⟨?_, ?_, ?_⟩
  · unfold buildLocationContext get_weather
    cases env.weatherApiKey <;> simp [hw]
  · intro dest errT ht
    unfold get_travel_time
    cases env.mapsApiKey <;> simp [ht]
  · simp only [run, hb1, hb2, hb3, hb4, hb5, hb6, Bool.false_eq_true, if_false]
    simp [buildCalendarContext, addTravelContext, hcal, htrv, hchat]

/-- Witness for C4 (amended): on the calendar-down environment (whose
weather fetch also raises), a keyword-free general-chat message still gets
the LLM reply, with the weather line absent and the location line
present. -/
theorem context_weather_failure_degrades_witness :
    envCalDown.weather = .error "WeatherDown" ∧
      classify (lowerS "hi there") = Intent.GeneralChat ∧
      buildLocationContext envCalDown =
        "My location: " ++ envCalDown.location ++ "\n" ∧
      run envCalDown [] "u" "hi there" =
        .ok ("sure",
          add_to_history (add_to_history (getConversationHistory [] "u").2
            "u" "user" "hi there") "u" "assistant" "sure") := by
  have h := context_weather_failure_degrades envCalDown [] "u" "hi there" "sure"
    "WeatherDown" rfl (by decide) (by decide) (by decide) (fun _ => rfl)
  exact ⟨rfl, by decide, h.1, h.2.2⟩

/-! ## Lemmas: the postpone token scan -/

theorem scanPP_cons (prev : Option String) (st : Option String × Nat)
    (w : String) (rest : List String) :
    scanPP prev st (w :: rest) =
      scanPP (some w)
        ((if w == "postpone" then
            match rest with
            | next :: _ => some next
            | [] => st.1
          else st.1),
         (if !(w == "postpone") && (w == "hour" || w == "hours") then
            match prev with
            | some p => if isDigitS p then digitsToNat p else st.2
            | none => st.2
          else st.2)) rest := rfl

theorem scanPP_fst_no_postpone (rest : List String) :
    ∀ (prev : Option String) (st : Option String × Nat),
      "postpone" ∉ rest → (scanPP prev st rest).1 = st.1 := by
  induction rest with
  | nil => intro prev st _; rfl
  | cons w rest ih =>
    intro prev st hmem
    have hw : (w == "postpone") = false := by
      refine beq_eq_false_iff_ne.mpr fun he => hmem ?_
      simp [he]
    have hmem' : "postpone" ∉ rest := fun hc => hmem (List.mem_cons_of_mem _ hc)
    rw [scanPP_cons]
    refine (ih (some w) _ hmem').trans ?_
    simp [hw]

theorem scanPP_snd_no_hours (rest : List String) :
    ∀ (prev : Option String) (st : Option String × Nat),
      "hour" ∉ rest → "hours" ∉ rest → (scanPP prev st rest).2 = st.2 := by
  induction rest with
  | nil => intro prev st _ _; rfl
  | cons w rest ih =>
    intro prev st h1 h2
    have hw1 : (w == "hour") = false := by
      refine beq_eq_false_iff_ne.mpr fun he => h1 ?_
      simp [he]
    have hw2 : (w == "hours") = false := by
      refine beq_eq_false_iff_ne.mpr fun he => h2 ?_
      simp [he]
    have h1' : "hour" ∉ rest := fun hc => h1 (List.mem_cons_of_mem _ hc)
    have h2' : "hours" ∉ rest := fun hc => h2 (List.mem_cons_of_mem _ hc)
    rw [scanPP_cons]
    refine (ih (some w) _ h1' h2').trans ?_
    simp [hw1, hw2]

theorem scanPP_fst_after_postpone (l₁ : List String) :
    ∀ (w : String) (l₂ : List String) (prev : Option String)
      (st : Option String × Nat),
      "postpone" ∉ w :: l₂ →
      (scanPP prev st (l₁ ++ "postpone" :: w :: l₂)).1 = some w := by
  induction l₁ with
  | nil =>
    intro w l₂ prev st hmem
    rw [List.nil_append, scanPP_cons]
    refine (scanPP_fst_no_postpone _ _ _ hmem).trans ?_
    simp
  | cons x l₁ ih =>
    intro w l₂ prev st hmem
    rw [List.cons_append, scanPP_cons]
    exact ih w l₂ (some x) _ hmem

theorem isDigitS_ne_keyword (d : String) (hd : isDigitS d = true) :
    (d == "hour") = false ∧ (d == "hours") = false := by
  refine ⟨beq_eq_false_iff_ne.mpr fun he => ?_, beq_eq_false_iff_ne.mpr fun he => ?_⟩
  · subst he; exact absurd hd (by decide)
  · subst he; exact absurd hd (by decide)

theorem scanPP_snd_digit_hours (a : List String) :
    ∀ (d hw : String) (b : List String) (prev : Option String)
      (st : Option String × Nat),
      (hw = "hour" ∨ hw = "hours") → isDigitS d = true →
      "hour" ∉ b → "hours" ∉ b →
      (scanPP prev st (a ++ d :: hw :: b)).2 = digitsToNat d := by
  induction a with
  | nil =>
    intro d hw b prev st hhw hd hb1 hb2
    obtain ⟨hne1, hne2⟩ := isDigitS_ne_keyword d hd
    rw [List.nil_append, scanPP_cons, scanPP_cons]
    refine (scanPP_snd_no_hours _ _ _ hb1 hb2).trans ?_
    rcases hhw with h | h <;> subst h <;>
      simp [hne1, hne2, hd,
        show (("hour" : String) == "postpone") = false from by decide,
        show (("hours" : String) == "postpone") = false from by decide]
  | cons x a ih =>
    intro d hw b prev st hhw hd hb1 hb2
    rw [List.cons_append, scanPP_cons]
    exact ih d hw b (some x) _ hhw hd hb1 hb2

/-! ## C6: postpone extraction -/

/-- Counterexample to C6 as stated: the claimed input extracts the
lowercased token `"demo"`, not `"Demo"`, because the whole message is
lowercased before the token scan. -/
theorem postpone_extraction_lowercases :
    (postponeExtract (lowerS "postpone Demo 2 hours")).1 = some "demo" ∧
      some "demo" ≠ some "Demo" := by decide

/-- C6 (amended): postpone extraction is a pure token heuristic over the
lowercased message with no LLM call: the token immediately following the
(last) `"postpone"` token is the event name, a digit token immediately
preceding `"hour"`/`"hours"` is the hour count defaulting to 1 when
absent; `"postpone Demo 2 hours"` extracts `("demo", 2)` and
`"postpone Demo"` extracts `("demo", 1)` (names come out lowercased), and
the postpone branch of `run` is independent of the LLM chat collaborator. -/
theorem postpone_extraction_heuristic :
    (∀ (m : String) (l₁ : List String) (w : String) (l₂ : List String),
       splitWords m = l₁ ++ "postpone" :: w :: l₂ →
       "postpone" ∉ w :: l₂ →
       (postponeExtract m).1 = some w) ∧
    (∀ (m : String) (a : List String) (d hw : String) (b : List String),
       splitWords m = a ++ d :: hw :: b →
       (hw = "hour" ∨ hw = "hours") → isDigitS d = true →
       "hour" ∉ b → "hours" ∉ b →
       (postponeExtract m).2 = digitsToNat d) ∧
    (∀ m : String, "hour" ∉ splitWords m → "hours" ∉ splitWords m →
       (postponeExtract m).2 = 1) ∧
    postponeExtract (lowerS "postpone Demo 2 hours") = (some "demo", 2) ∧
    postponeExtract (lowerS "postpone Demo") = (some "demo", 1) ∧
    (∀ (env : Env) (mem : Memory) (u msg : String)
       (c₁ c₂ : List ChatMsg → Except String String),
       classify (lowerS msg) = .Postpone →
       run { env with chat := c₁ } mem u msg =
         run { env with chat := c₂ } mem u msg) := by
  refine ⟨?_, ?_, ?_, by decide, by decide, ?_⟩
  · intro m l₁ w l₂ hsplit hmem
    unfold postponeExtract
    rw [hsplit]
    exact scanPP_fst_after_postpone l₁ w l₂ none (none, 1) hmem
  · intro m a d hw b hsplit hhw hd hb1 hb2
    unfold postponeExtract
    rw [hsplit]
    exact scanPP_snd_digit_hours a d hw b none (none, 1) hhw hd hb1 hb2
  · intro m h1 h2
    exact scanPP_snd_no_hours _ none (none, 1) h1 h2
  · intro env mem u msg c₁ c₂ hcls
    obtain ⟨hb1, hb2, hb3, hb4⟩ := (classify_postpone_iff _).mp hcls
    simp only [run, hb1, hb2, hb3, hb4, Bool.false_eq_true, if_false, if_true]
    cases (postponeExtract (lowerS msg)).1 <;> rfl

/-- Witness for C6 (amended): a multi-token postpone message hits the
general name and hours rules. -/
theorem postpone_extraction_heuristic_witness :
    splitWords (lowerS "postpone standup 3 hours please") =
      ["postpone", "standup", "3", "hours", "please"] ∧
    (postponeExtract (lowerS "postpone standup 3 hours please")).1 = some "standup" ∧
    (postponeExtract (lowerS "postpone standup 3 hours please")).2 = digitsToNat "3" ∧
    (postponeExtract (lowerS "see you later")).2 = 1 := by
  refine ⟨by decide, ?_, ?_, ?_⟩
  · exact postpone_extraction_heuristic.1 (lowerS "postpone standup 3 hours please")
      [] "standup" ["3", "hours", "please"] (by decide) (by decide)
  · exact postpone_extraction_heuristic.2.1 (lowerS "postpone standup 3 hours please")
      ["postpone", "standup"] "3" "hours" ["please"] (by decide) (Or.inr rfl)
      (by decide) (by decide) (by decide)
  · exact postpone_extraction_heuristic.2.2.1 (lowerS "see you later")
      (by decide) (by decide)

/-! ## C7: update-location extraction -/

/-- Counterexample to C7 as stated: the claimed input yields the lowercased
`"room 5"`, not `"Room 5"`, because the split runs on the lowercased
message. -/
theorem update_location_extraction_lowercases :
    parseUpdateLocation (lowerS "update location of standup to Room 5") =
        .proceed "standup" "room 5" ∧
      ("room 5" : String) ≠ "Room 5" := by decide

/-- C7 (amended): update-location extraction splits the lowercased message
after the first `"update location of"` / `"change location of"` occurrence
and then splits the remainder on `" to "` if present, else `" at "`
(`" to "` takes precedence regardless of position); the connector split
must produce exactly two pieces — more raise `ValueError`, surfaced as a
failure reply — which are trimmed into event name and new location (both
lowercased, so the example yields `"standup"` / `"room 5"`); a missing
separator phrase or connector produces the respective usage hint. -/
theorem update_location_extraction (m a b : String) :
    (pyIn "update location of" m = false → pyIn "change location of" m = false →
       parseUpdateLocation m = .usageNoPhrase) ∧
    (pyIn "update location of" m = true →
       pyIn " to " (pyPart1 m "update location of") = false →
       pyIn " at " (pyPart1 m "update location of") = false →
       parseUpdateLocation m = .usageNoConnector) ∧
    (pyIn "update location of" m = true →
       pyIn " to " (pyPart1 m "update location of") = true →
       splitOnS (pyPart1 m "update location of") " to " = [a, b] →
       trimS a ≠ "" → trimS b ≠ "" →
       parseUpdateLocation m = .proceed (trimS a) (trimS b)) ∧
    (pyIn "update location of" m = true →
       pyIn " to " (pyPart1 m "update location of") = false →
       pyIn " at " (pyPart1 m "update location of") = true →
       splitOnS (pyPart1 m "update location of") " at " = [a, b] →
       trimS a ≠ "" → trimS b ≠ "" →
       parseUpdateLocation m = .proceed (trimS a) (trimS b)) ∧
    (pyIn "update location of" m = true →
       pyIn " to " (pyPart1 m "update location of") = true →
       (splitOnS (pyPart1 m "update location of") " to ").length ≠ 2 →
       parseUpdateLocation m =
         .unpackErr "too many values to unpack (expected 2)") ∧
    parseUpdateLocation (lowerS "update location of standup to Room 5 to 6") =
      .unpackErr "too many values to unpack (expected 2)" := by
  refine ⟨?_, ?_, ?_, ?_, ?_, by decide⟩
  · intro h1 h2
    unfold parseUpdateLocation
    simp [h1, h2]
  · intro h1 h2 h3
    unfold parseUpdateLocation
    simp [h1, h2, h3]
  · intro h1 h2 hsp ha hb
    unfold parseUpdateLocation
    simp only [h1, if_true, h2, hsp]
    unfold finishUpdLoc
    simp [ha, hb]
  · intro h1 h2 h3 hsp ha hb
    unfold parseUpdateLocation
    simp only [h1, if_true, h2, Bool.false_eq_true, if_false, h3, hsp]
    unfold finishUpdLoc
    simp [ha, hb]
  · intro h1 h2 hlen
    unfold parseUpdateLocation
    simp only [h1, if_true, h2]
    rcases hsp : splitOnS (pyPart1 m "update location of") " to " with
      _ | ⟨x, _ | ⟨y, _ | ⟨z, rest⟩⟩⟩ <;> simp_all [hsp]

/-- Witness for C7 (amended): the happy path on the claim's own example,
plus a no-phrase message and a no-connector message. -/
theorem update_location_extraction_witness :
    parseUpdateLocation (lowerS "update location of standup to Room 5") =
        .proceed "standup" "room 5" ∧
      parseUpdateLocation (lowerS "update location please") = .usageNoPhrase ∧
      parseUpdateLocation (lowerS "update location of standup near Room 5") =
        .usageNoConnector := by
  refine ⟨?_, ?_, ?_⟩
  · have h := (update_location_extraction
      (lowerS "update location of standup to Room 5") " standup" "room 5").2.2.1
    exact h (by decide) (by decide) (by decide) (by decide) (by decide)
  · exact (update_location_extraction (lowerS "update location please") "" "").1
      (by decide) (by decide)
  · exact (update_location_extraction
      (lowerS "update location of standup near Room 5") "" "").2.1
      (by decide) (by decide) (by decide)

/-! ## Lemmas: event resolution by name -/

theorem bind_ok_eq {α β : Type} (a : α) (f : α → Except String β) :
    (Except.ok a >>= f : Except String β) = f a := rfl

theorem bind_error_eq {α β : Type} (e : String) (f : α → Except String β) :
    (Except.error e >>= f : Except String β) = Except.error e := rfl

theorem map_ok_eq {α β : Type} (a : α) (f : α → β) :
    (Except.map f (Except.ok a) : Except String β) = Except.ok (f a) := rfl

/-- The summary of an event when it is present and a string. -/
def summaryStr? (e : EventObj) : Option String :=
  match lookupJ e "summary" with
  | some (.str s) => some s
  | _ => none

/-- The event has a string summary that differs from `name` after
lowercasing. -/
def summaryNe (name : String) (e : EventObj) : Bool :=
  match summaryStr? e with
  | some s => !(lowerS s == lowerS name)
  | none => false

/-- `name` is a strict substring of the event's summary, case-insensitively:
contained in the lowered summary and strictly shorter. -/
def strictSubName (name : String) (e : EventObj) : Bool :=
  match summaryStr? e with
  | some s =>
    containsCL (lowerS s).data (lowerS name).data &&
      decide ((lowerS name).data.length < (lowerS s).data.length)
  | none => false

theorem summaryStr?_lookup {e : EventObj} {s : String}
    (h : summaryStr? e = some s) : lookupJ e "summary" = some (.str s) := by
  unfold summaryStr? at h
  cases hl : lookupJ e "summary" with
  | none => rw [hl] at h; exact absurd h (by simp)
  | some v =>
    cases v with
    | str s' => rw [hl] at h; simp at h; rw [h]
    | obj o => rw [hl] at h; exact absurd h (by simp)
    | arr a => rw [hl] at h; exact absurd h (by simp)

theorem summaryNe_elim {name : String} {e : EventObj}
    (h : summaryNe name e = true) :
    ∃ s, lookupJ e "summary" = some (.str s) ∧ (lowerS s == lowerS name) = false := by
  unfold summaryNe at h
  cases hs : summaryStr? e with
  | none => rw [hs] at h; exact absurd h (by simp)
  | some s =>
    rw [hs] at h
    exact ⟨s, summaryStr?_lookup hs, by simpa using h⟩

theorem findTarget_none (l : List EventObj) :
    ∀ name, l.all (summaryNe name) = true → findTarget l name = .ok none := by
  induction l with
  | nil => intro name _; rfl
  | cons e l ih =>
    intro name hall
    rw [List.all_cons, Bool.and_eq_true] at hall
    obtain ⟨s, hsum, hne⟩ := summaryNe_elim hall.1
    unfold findTarget getStr
    rw [hsum]
    simp only [bind_ok_eq, hne, Bool.false_eq_true, if_false]
    exact ih name hall.2

theorem findTarget_first (pre : List EventObj) :
    ∀ (e : EventObj) (post : List EventObj) (name s : String),
      pre.all (summaryNe name) = true →
      lookupJ e "summary" = some (.str s) →
      lowerS s = lowerS name →
      findTarget (pre ++ e :: post) name = .ok (some e) := by
  induction pre with
  | nil =>
    intro e post name s _ hsum hlow
    rw [List.nil_append]
    unfold findTarget getStr
    rw [hsum]
    simp only [bind_ok_eq, hlow, beq_self_eq_true, if_true]
    rfl
  | cons e' pre ih =>
    intro e post name s hall hsum hlow
    rw [List.all_cons, Bool.and_eq_true] at hall
    obtain ⟨s', hsum', hne'⟩ := summaryNe_elim hall.1
    rw [List.cons_append]
    unfold findTarget getStr
    rw [hsum']
    simp only [bind_ok_eq, hne', Bool.false_eq_true, if_false]
    exact ih e post name s hall.2 hsum hlow

theorem strictSub_imp_summaryNe (name : String) (e : EventObj)
    (h : strictSubName name e = true) : summaryNe name e = true := by
  unfold strictSubName at h
  unfold summaryNe
  cases hs : summaryStr? e with
  | none => rw [hs] at h; exact absurd h (by simp)
  | some s =>
    rw [hs] at h
    rw [Bool.and_eq_true, decide_eq_true_iff] at h
    simp only [Bool.not_eq_true']
    refine beq_eq_false_iff_ne.mpr fun he => ?_
    have : (lowerS s).data.length = (lowerS name).data.length := by rw [he]
    omega

/-! ## C5: case-insensitive exact resolution over the 10-event window -/

/-- C5: name resolution scans the first 10 upcoming events in backend
order; it returns the first event whose summary equals the name up to
case, and a name that is a strict substring of every candidate summary
(hence exactly matching none) resolves to not-found, surfaced by
`postpone_event` as the reply `Could not find event '<name>'`. -/
theorem event_resolution_by_name (env : Env) (name s : String) (hours : Nat)
    (events pre post : List EventObj) (e : EventObj)
    (hup : env.upcoming = .ok events) :
    (events.take 10 = pre ++ e :: post →
       pre.all (summaryNe name) = true →
       lookupJ e "summary" = some (.str s) →
       lowerS s = lowerS name →
       findTarget (events.take 10) name = .ok (some e)) ∧
    ((events.take 10).all (strictSubName name) = true →
       postpone_event env name hours =
         "Could not find event \x27" ++ name ++ "\x27") := by
  constructor
  · intro hw hall hsum hlow
    rw [hw]
    exact findTarget_first pre e post name s hall hsum hlow
  · intro hall
    have hne : (events.take 10).all (summaryNe name) = true := by
      rw [List.all_eq_true] at hall ⊢
      exact fun x hx => strictSub_imp_summaryNe name x (hall x hx)
    have hnone := findTarget_none (events.take 10) name hne
    unfold postpone_event postponeCore get_upcoming_events
    rw [hup]
    simp only [map_ok_eq, bind_ok_eq, hnone]
    rfl

/-- Events for the resolution witness. -/
def evRemember : EventObj := [("id", .str "e1"), ("summary", .str "Remember")]

/-- Second event for the resolution witness. -/
def evDemo : EventObj := [("id", .str "e2"), ("summary", .str "demo")]

/-- Calendar environment holding the two witness events. -/
def envFind : Env := { envChatDown with upcoming := .ok [evRemember, evDemo] }

/-- Witness for C5: `"DEMO"` resolves (case-insensitively, first match) to
the `demo` event past the non-matching `Remember` event, while `"em"` — a
strict substring of both summaries — yields the not-found reply. -/
theorem event_resolution_by_name_witness :
    findTarget ([evRemember, evDemo].take 10) "DEMO" = .ok (some evDemo) ∧
      postpone_event envFind "em" 1 = "Could not find event \x27em\x27" := by
  constructor
  · exact (event_resolution_by_name envFind "DEMO" "demo" 1 [evRemember, evDemo]
      [evRemember] [] evDemo rfl).1 rfl (by decide) rfl (by decide)
  · exact (event_resolution_by_name envFind "em" "x" 1 [evRemember, evDemo]
      [] [] evDemo rfl).2 (by decide)

/-! ## Lemmas: dict writes and the modify-event merge -/

theorem lookupJ_setKey_self (l : List (String × JVal)) (k : String) (v : JVal) :
    lookupJ (setKey l k v) k = some v := by
  induction l with
  | nil => simp [setKey, lookupJ]
  | cons hd tl ih =>
    obtain ⟨k', v'⟩ := hd
    by_cases hk : (k' == k) = true
    · simp [setKey, hk, lookupJ]
    · simp only [Bool.not_eq_true] at hk
      simp [setKey, hk, lookupJ, ih]

theorem lookupJ_setKey_other (l : List (String × JVal)) (k k₂ : String) (v : JVal)
    (hne : k₂ ≠ k) : lookupJ (setKey l k v) k₂ = lookupJ l k₂ := by
  have hkk : (k == k₂) = false := beq_eq_false_iff_ne.mpr (Ne.symm hne)
  induction l with
  | nil => simp [setKey, lookupJ, hkk]
  | cons hd tl ih =>
    obtain ⟨k', v'⟩ := hd
    by_cases hk : (k' == k) = true
    · have hk' : k' = k := eq_of_beq hk
      simp [setKey, hk, lookupJ, hkk, hk']
    · simp only [Bool.not_eq_true] at hk
      by_cases hk2 : (k' == k₂) = true
      · simp [setKey, hk, lookupJ, hk2]
      · simp only [Bool.not_eq_true] at hk2
        simp [setKey, hk, lookupJ, hk2, ih]

theorem lookupJ_dictUpdate_not_mem (d : List (String × JVal)) :
    ∀ (e : List (String × JVal)) (k₂ : String), k₂ ∉ d.map Prod.fst →
      lookupJ (dictUpdate e d) k₂ = lookupJ e k₂ := by
  induction d with
  | nil => intro e k₂ _; rfl
  | cons c d ih =>
    obtain ⟨k, v⟩ := c
    intro e k₂ hmem
    rw [List.map_cons, List.mem_cons] at hmem
    push_neg at hmem
    show lookupJ (dictUpdate (setKey e k v) d) k₂ = lookupJ e k₂
    rw [ih (setKey e k v) k₂ hmem.2]
    exact lookupJ_setKey_other e k k₂ v hmem.1

theorem applyChanges_props (changes : List (String × JVal)) :
    ∀ (ev ev' : EventObj),
      (changes.map Prod.fst).Nodup →
      applyChanges ev changes = .ok ev' →
      (∀ k, k ∉ changes.map Prod.fst → lookupJ ev' k = lookupJ ev k) ∧
      (∀ k d e, (k, JVal.obj d) ∈ changes →
         lookupJ ev k = some (.obj e) →
         lookupJ ev' k = some (.obj (dictUpdate e d))) := by
  induction changes with
  | nil =>
    intro ev ev' _ happ
    simp only [applyChanges] at happ
    cases happ
    exact ⟨fun k _ => rfl, fun k d e hmem _ => absurd hmem (List.not_mem_nil _)⟩
  | cons c rest ih =>
    obtain ⟨k₀, v₀⟩ := c
    intro ev ev' hnd happ
    rw [List.map_cons, List.nodup_cons] at hnd
    have step :
        ∀ acc : EventObj, applyChanges acc rest = .ok ev' →
          (∀ k, k ≠ k₀ → lookupJ acc k = lookupJ ev k) →
          (∀ d e, v₀ = JVal.obj d → lookupJ ev k₀ = some (.obj e) →
             lookupJ acc k₀ = some (.obj (dictUpdate e d))) →
          (∀ k, k ∉ ((k₀, v₀) :: rest).map Prod.fst →
             lookupJ ev' k = lookupJ ev k) ∧
          (∀ k d e, (k, JVal.obj d) ∈ (k₀, v₀) :: rest →
             lookupJ ev k = some (.obj e) →
             lookupJ ev' k = some (.obj (dictUpdate e d))) := by
      intro acc happ' hpres hk₀
      obtain ⟨ihA, ihB⟩ := ih acc ev' hnd.2 happ'
      constructor
      · intro k hk
        rw [List.map_cons, List.mem_cons] at hk
        push_neg at hk
        rw [ihA k hk.2, hpres k hk.1]
      · intro k d e hmem hev
        rcases List.mem_cons.mp hmem with hhead | htail
        · injection hhead with hk hv
          subst hk
          rw [ihA k hnd.1]
          exact hk₀ d e hv.symm hev
        · have hkmem : k ∈ rest.map Prod.fst :=
            List.mem_map.mpr ⟨(k, JVal.obj d), htail, rfl⟩
          have hkne : k ≠ k₀ := fun he => hnd.1 (he ▸ hkmem)
          have hacc : lookupJ acc k = some (.obj e) := by
            rw [hpres k hkne, hev]
          exact ihB k d e htail hacc
    cases v₀ with
    | obj d₀ =>
      cases hl : lookupJ ev k₀ with
      | none =>
        simp only [applyChanges, hl] at happ
        refine step _ happ (fun k hk => lookupJ_setKey_other ev k₀ k _ hk)
          (fun d e hv hev => ?_)
        rw [hl] at hev
        exact absurd hev (by simp)
      | some w =>
        cases w with
        | obj e₀ =>
          simp only [applyChanges, hl] at happ
          refine step _ happ (fun k hk => lookupJ_setKey_other ev k₀ k _ hk)
            (fun d e hv hev => ?_)
          injection hv with hd
          subst hd
          rw [hl] at hev
          injection hev with hw
          injection hw with he
          subst he
          exact lookupJ_setKey_self ev k₀ _
        | str s₀ =>
          simp only [applyChanges, hl] at happ
          exact absurd happ (by simp)
        | arr a₀ =>
          simp only [applyChanges, hl] at happ
          exact absurd happ (by simp)
    | str s₀ =>
      simp only [applyChanges] at happ
      exact step _ happ (fun k hk => lookupJ_setKey_other ev k₀ k _ hk)
        (fun d e hv _ => absurd hv (by simp))
    | arr a₀ =>
      simp only [applyChanges] at happ
      exact step _ happ (fun k hk => lookupJ_setKey_other ev k₀ k _ hk)
        (fun d e hv _ => absurd hv (by simp))


/-! ## C8: modify_event merges rather than replaces -/

/-- C8: the merge applied by `modify_event` before submitting the update
body: every stored field whose key is not named in the changes dict is
left unchanged, and a dict-valued change merges key-wise into the existing
nested dict — with nested keys absent from the change preserved — rather
than replacing it wholesale. -/
theorem modify_event_merges (ev ev' : EventObj) (changes : List (String × JVal))
    (hnd : (changes.map Prod.fst).Nodup)
    (happ : applyChanges ev changes = .ok ev') :
    (∀ k, k ∉ changes.map Prod.fst → lookupJ ev' k = lookupJ ev k) ∧
    (∀ k d e, (k, JVal.obj d) ∈ changes →
       lookupJ ev k = some (.obj e) →
       lookupJ ev' k = some (.obj (dictUpdate e d)) ∧
       ∀ k₂, k₂ ∉ d.map Prod.fst →
         lookupJ (dictUpdate e d) k₂ = lookupJ e k₂) := by
  obtain ⟨hA, hB⟩ := applyChanges_props changes ev ev' hnd happ
  exact ⟨hA, fun k d e hmem hev =>
    ⟨hB k d e hmem hev, fun k₂ hk₂ => lookupJ_dictUpdate_not_mem d e k₂ hk₂⟩⟩

/-- Stored event for the merge witness. -/
def evStored : EventObj :=
  [("summary", .str "Demo"),
   ("start", .obj [("dateTime", .str "t1"), ("timeZone", .str "tz")]),
   ("location", .str "HQ")]

/-- A postpone-style partial change touching only `start.dateTime`. -/
def changesStart : List (String × JVal) :=
  [("start", .obj [("dateTime", .str "t2")])]

/-- The merged body the update submits for the witness data. -/
def evMergedW : EventObj :=
  [("summary", .str "Demo"),
   ("start", .obj [("dateTime", .str "t2"), ("timeZone", .str "tz")]),
   ("location", .str "HQ")]

/-- Witness for C8: merging the `start.dateTime` change preserves the
untouched `location` field and the nested `timeZone` key. -/
theorem modify_event_merges_witness :
    applyChanges evStored changesStart = .ok evMergedW ∧
      lookupJ evMergedW "location" = lookupJ evStored "location" ∧
      lookupJ evMergedW "start" =
        some (.obj (dictUpdate [("dateTime", .str "t1"), ("timeZone", .str "tz")]
          [("dateTime", .str "t2")])) ∧
      lookupJ (dictUpdate [("dateTime", JVal.str "t1"), ("timeZone", JVal.str "tz")]
          [("dateTime", JVal.str "t2")]) "timeZone" =
        lookupJ [("dateTime", JVal.str "t1"), ("timeZone", JVal.str "tz")] "timeZone" := by
  have h := modify_event_merges evStored evMergedW changesStart (by decide) rfl
  have h2 := h.2 "start" [("dateTime", JVal.str "t2")]
    [("dateTime", JVal.str "t1"), ("timeZone", JVal.str "tz")]
    (List.mem_singleton.mpr rfl) rfl
  exact ⟨rfl, h.1 "location" (by decide), h2.1, h2.2 "timeZone" (by decide)⟩

/-! ## Lemmas: attendee merge -/

theorem attendeeEmails_append (a : List JVal) :
    ∀ (b : List JVal) (ea eb : List String),
      attendeeEmails a = .ok ea → attendeeEmails b = .ok eb →
      attendeeEmails (a ++ b) = .ok (ea ++ eb) := by
  induction a with
  | nil =>
    intro b ea eb ha hb
    simp only [attendeeEmails] at ha
    cases ha
    simpa using hb
  | cons x a ih =>
    intro b ea eb ha hb
    rw [List.cons_append]
    cases x with
    | str s =>
      simp only [attendeeEmails] at ha
      exact absurd ha (by simp [bind_error_eq])
    | arr l =>
      simp only [attendeeEmails] at ha
      exact absurd ha (by simp [bind_error_eq])
    | obj fields =>
      simp only [attendeeEmails] at ha ⊢
      cases hx : getStr fields "email" with
      | error e =>
        rw [hx] at ha
        exact absurd ha (by simp [bind_error_eq])
      | ok em =>
        rw [hx] at ha
        rw [bind_ok_eq] at ha ⊢
        cases hrest : attendeeEmails a with
        | error e =>
          rw [hrest] at ha
          exact absurd ha (by simp [bind_error_eq])
        | ok es =>
          rw [hrest] at ha
          rw [bind_ok_eq] at ha
          cases ha
          rw [ih b es eb hrest hb, bind_ok_eq]
          rfl

theorem attendeeEmails_mkAtt (l : List String) :
    attendeeEmails (l.map mkAtt) = .ok l := by
  induction l with
  | nil => rfl
  | cons e l ih =>
    rw [List.map_cons]
    simp only [attendeeEmails, mkAtt, getStr, lookupJ]
    simp only [beq_self_eq_true, if_true, bind_ok_eq, ih]
    rfl

/-! ## C9: attendee merge is idempotent on present emails -/

/-- C9: the attendee list `update_event_attendees` submits is the existing
list extended by exactly the requested emails not already present: its
email sequence is the existing emails followed by the fresh requested ones,
the multiplicity of every already-present email is unchanged, a request
consisting only of present emails leaves the list exactly as it was, and
every submitted entry is either an existing entry or a fresh
`{'email': e}` entry for a requested absent `e`. -/
theorem attendee_merge_idempotent (existing : List JVal) (ems requested : List String)
    (hex : attendeeEmails existing = .ok ems) :
    attendeeEmails (mergeAttendees existing ems requested) =
      .ok (ems ++ requested.filter (fun e => !(ems.contains e))) ∧
    (∀ e, e ∈ ems →
       (ems ++ requested.filter (fun e => !(ems.contains e))).count e = ems.count e) ∧
    ((∀ e, e ∈ requested → e ∈ ems) → mergeAttendees existing ems requested = existing) ∧
    (∀ v, v ∈ mergeAttendees existing ems requested →
       v ∈ existing ∨ ∃ e, e ∈ requested ∧ ems.contains e = false ∧ v = mkAtt e) := by
  refine ⟨?_, ?_, ?_, ?_⟩
  · exact attendeeEmails_append existing _ ems _ hex
      (attendeeEmails_mkAtt (requested.filter (fun e => !(ems.contains e))))
  · intro e he
    rw [List.count_append]
    have hz : (requested.filter (fun x => !(ems.contains x))).count e = 0 := by
      rw [List.count_eq_zero]
      intro hc
      have := List.of_mem_filter hc
      simp only [Bool.not_eq_true'] at this
      exact absurd (List.elem_eq_true_of_mem he) (by simpa [List.contains] using this)
    omega
  · intro hall
    unfold mergeAttendees
    have hnil : requested.filter (fun e => !(ems.contains e)) = [] := by
      rw [List.filter_eq_nil_iff]
      intro a ha
      simp only [Bool.not_eq_true', Bool.not_eq_true]
      simpa [List.contains] using List.elem_eq_true_of_mem (hall a ha)
    rw [hnil]
    simp
  · intro v hv
    rcases List.mem_append.mp hv with hl | hr
    · exact Or.inl hl
    · obtain ⟨e, hef, hve⟩ := List.mem_map.mp hr
      refine Or.inr ⟨e, List.mem_of_mem_filter hef, ?_, hve.symm⟩
      have := List.of_mem_filter hef
      simpa using this

/-- Existing attendees for the attendee-merge witness. -/
def attExisting : List JVal := [mkAtt "a@x.com", mkAtt "b@y.com"]

/-- Witness for C9: re-adding the present `a@x.com` leaves the attendee
list unchanged, and merging in a fresh `c@z.com` preserves the multiplicity
of `a@x.com`. -/
theorem attendee_merge_idempotent_witness :
    attendeeEmails attExisting = .ok ["a@x.com", "b@y.com"] ∧
      mergeAttendees attExisting ["a@x.com", "b@y.com"] ["a@x.com"] = attExisting ∧
      (["a@x.com", "b@y.com"] ++
          (["a@x.com", "c@z.com"].filter
            (fun e => !(["a@x.com", "b@y.com"].contains e)))).count "a@x.com" =
        (["a@x.com", "b@y.com"] : List String).count "a@x.com" := by
  refine ⟨rfl, ?_, ?_⟩
  · exact (attendee_merge_idempotent attExisting ["a@x.com", "b@y.com"]
      ["a@x.com"] rfl).2.2.1 (by decide)
  · exact (attendee_merge_idempotent attExisting ["a@x.com", "b@y.com"]
      ["a@x.com", "c@z.com"] rfl).2.1 "a@x.com" (by decide)

/-! ## C10: created events default to a one-hour duration -/

/-- C10: the creation router branch always invokes `create_event` with
`end_time` absent (`none` appears literally in the invocation `run`
reduces to), and `create_event` with an absent end time resolves the end
instant to exactly one hour (60 minutes) after the resolved start
instant. -/
theorem create_event_one_hour_default (env : Env) (mem : Memory)
    (u msg c c' : String) (info : EventInfo) (s : String) (st en : Int) :
    (createEventTimes env s none = .ok (st, en) → en = st + 60) ∧
    (classify (lowerS msg) = .CreateEvent →
     env.chat (createMessages msg) = .ok c →
     stripFences (trimS c) = .ok c' →
     env.parseEventJson c' = .ok info →
     run env mem u msg =
       .ok ("✅ Event created!\n" ++
         create_event env info.summary info.startTime none info.location,
         (getConversationHistory mem u).2)) := by
  constructor
  · intro ht
    unfold createEventTimes at ht
    cases hS : resolveStart env s with
    | error e =>
      rw [hS, bind_error_eq] at ht
      exact absurd ht (by simp)
    | ok v =>
      rw [hS, bind_ok_eq] at ht
      have ht' : (Except.ok (v, v + 60) : Except String (Int × Int)) =
          .ok (st, en) := ht
      injection ht' with hp
      have h1 : st = v := (congrArg Prod.fst hp).symm
      have h2 : en = v + 60 := (congrArg Prod.snd hp).symm
      omega
  · intro hcls hchat hstrip hparse
    obtain ⟨hb1, hb2, hb3⟩ := (classify_create_iff _).mp hcls
    simp only [run, hb1, hb2, hb3, Bool.false_eq_true, if_false, if_true]
    simp only [createBranchCore, hchat, bind_ok_eq, hstrip, hparse]
    rfl

/-- A healthy creation environment for the C10 witness. -/
def envCreate : Env :=
  { envChatDown with
    chat := fun _ => .ok "RAW"
    parseEventJson := fun s =>
      if s == "RAW" then .ok ⟨"Demo", "2025-02-21T12:00:00-05:00", some "HQ"⟩
      else .error "bad json"
    parseIso := fun _ => .ok 1000 }

/-- Witness for C10: a concrete creation turn resolves times `(1000, 1060)`
— one hour apart — and the router reply wraps `create_event` called with
`end_time` absent. -/
theorem create_event_one_hour_default_witness :
    createEventTimes envCreate "2025-02-21T12:00:00-05:00" none = .ok (1000, 1060) ∧
      (1060 : Int) = 1000 + 60 ∧
      run envCreate [] "u" "schedule a demo" =
        .ok ("✅ Event created!\n" ++
          create_event envCreate "Demo" "2025-02-21T12:00:00-05:00" none (some "HQ"),
          (getConversationHistory [] "u").2) := by
  refine ⟨rfl, ?_, ?_⟩
  · exact (create_event_one_hour_default envCreate [] "u" "schedule a demo"
      "RAW" "RAW" ⟨"Demo", "2025-02-21T12:00:00-05:00", some "HQ"⟩
      "2025-02-21T12:00:00-05:00" 1000 1060).1 rfl
  · exact (create_event_one_hour_default envCreate [] "u" "schedule a demo"
      "RAW" "RAW" ⟨"Demo", "2025-02-21T12:00:00-05:00", some "HQ"⟩
      "2025-02-21T12:00:00-05:00" 1000 1060).2 (by decide) rfl rfl rfl

end ScheduleIt
